import Mathlib

/-!
Shallow embedding of the mollusk bytecode compiler and virtual machine
(src/types.rs, src/error.rs, src/ast.rs, src/vm.rs) together with proofs
about the embedded definitions.

Modelling conventions:
* Rust `i32` is modelled as `Int`; two's-complement wrap-around of the
  release-mode `+`, `-`, `*` operators is made explicit with `wrap32`.
* Rust `Vec` is a Lean `List` and, for the operand stack and environment
  stack, the Rust vector's *last* element (its top) is the list's *head*.
* Rust `HashMap<String, Value>` is an association list; `insert` replaces
  the first binding of the key or appends a fresh one.  Iteration order of
  a Rust `HashMap` is unspecified; the association-list order stands in for
  one admissible order (theorems that depend on a scan only use frames
  where every order gives the same outcome).
* Fallible Rust functions (`Result<_, VMError>`) return `Except RunErr _`;
  a Rust panic (the `expect` in `current_env`, the `panic!` in `compile`,
  and the overflow panic of `i32` division at `i32::MIN / -1`) is the
  distinguished `RunErr.panicked` outcome.
* The potentially diverging VM loop is run with explicit fuel.
-/

/-- The runtime value type of src/types.rs (`enum Value`). -/
inductive Value where
  | Number (n : Int)
  | Boolean (b : Bool)
  | Array (elems : List Value)
  | Null

/-- The error enum of src/error.rs (`enum VMError`), extended with the two
variants `StackOverflow` and `InvalidJump {target, max}` that src/vm.rs
constructs (they are referenced by the VM although error.rs omits them). -/
inductive VMError where
  | ParseError (message : String) (line position : Nat)
  | TokenizationError (message : String) (line position : Nat)
  | ExecutionError (message : String) (line position : Nat)
  | TypeError (message : String)
  | IndexError (index : Int) (len : Nat)
  | NotAnArray
  | UndefinedVariable (name : String)
  | StackUnderflow
  | DivisionByZero
  | NoScopeToEnd
  | StackOverflow
  | InvalidJump (target max : Nat)
deriving DecidableEq

/-- Outcome of running embedded code: either a `VMError` (Rust `Err(_)`)
or a Rust panic (which aborts instead of returning a `Result`). -/
inductive RunErr where
  | vm (e : VMError)
  | panicked (msg : String)
deriving DecidableEq

/-- Two's-complement wrap-around into the `i32` range
`[-2147483648, 2147483648)`: release-mode Rust `i32` addition,
subtraction and multiplication compute modulo `2^32`. -/
def wrap32 (x : Int) : Int :=
  (x + 2147483648) % 4294967296 - 2147483648

/-- `Value::type_name` of src/types.rs. -/
def Value.type_name : Value → String
  | .Number _ => "number"
  | .Boolean _ => "boolean"
  | .Array _ => "array"
  | .Null => "null"

/-- Rust `Debug` rendering of a `Value` (`{:?}`), used in error messages. -/
def vrepr : Value → String
  | .Number n => "Number(" ++ toString n ++ ")"
  | .Boolean b => "Boolean(" ++ (if b then "true" else "false") ++ ")"
  | .Null => "Null"
  | .Array xs =>
      "Array([" ++ String.intercalate ", " (xs.attach.map fun x => vrepr x.1) ++ "])"
decreasing_by
  have := List.sizeOf_lt_of_mem x.2
  simp_wf
  omega

/-- `Value::is_truthy` of src/types.rs: a `Number` is truthy iff strictly
positive, a `Boolean` is its own value, an `Array` is truthy iff
non-empty, `Null` is falsy. -/
def Value.is_truthy : Value → Bool
  | .Number n => decide (0 < n)
  | .Boolean b => b
  | .Array arr => !arr.isEmpty
  | .Null => false

/-- `VMBinaryOp::add` for `Value` (src/types.rs): defined on
`Number × Number` (wrapping `i32` addition), `TypeError` otherwise. -/
def Value.add : Value → Value → Except RunErr Value
  | .Number a, .Number b => .ok (.Number (wrap32 (a + b)))
  | a, b =>
      .error (.vm (.TypeError ("Cannot add " ++ vrepr a ++ " and " ++ vrepr b)))

/-- `VMBinaryOp::sub` for `Value` (src/types.rs). -/
def Value.sub : Value → Value → Except RunErr Value
  | .Number a, .Number b => .ok (.Number (wrap32 (a - b)))
  | a, b =>
      .error (.vm (.TypeError ("Cannot subtract " ++ vrepr a ++ " and " ++ vrepr b)))

/-- `VMBinaryOp::mul` for `Value` (src/types.rs). -/
def Value.mul : Value → Value → Except RunErr Value
  | .Number a, .Number b => .ok (.Number (wrap32 (a * b)))
  | a, b =>
      .error (.vm (.TypeError ("Cannot multiply " ++ vrepr a ++ " and " ++ vrepr b)))

/-- `VMBinaryOp::div` for `Value` (src/types.rs): the zero check precedes
the division; Rust `i32` division truncates toward zero (`Int.tdiv`) and
panics on the sole overflowing pair `i32::MIN / -1`. -/
def Value.div : Value → Value → Except RunErr Value
  | .Number a, .Number b =>
      if b = 0 then .error (.vm .DivisionByZero)
      else if a = -2147483648 ∧ b = -1 then
        .error (.panicked "attempt to divide with overflow")
      else .ok (.Number (a.tdiv b))
  | a, b =>
      .error (.vm (.TypeError ("Cannot divide " ++ vrepr a ++ " and " ++ vrepr b)))

/-- `VMCompare::eq` for `Value` (src/types.rs): the code compares the two
operands' truthiness, not their structure. -/
def Value.eq (a b : Value) : Bool :=
  a.is_truthy == b.is_truthy

/-- `VMCompare::lt` for `Value` (src/types.rs). -/
def Value.lt : Value → Value → Except RunErr Bool
  | .Number a, .Number b => .ok (decide (a < b))
  | a, b =>
      .error (.vm (.TypeError ("Cannot compare " ++ vrepr a ++ " and " ++ vrepr b ++ " with <")))

/-- `VMCompare::gt` for `Value` (src/types.rs). -/
def Value.gt : Value → Value → Except RunErr Bool
  | .Number a, .Number b => .ok (decide (b < a))
  | a, b =>
      .error (.vm (.TypeError ("Cannot compare " ++ vrepr a ++ " and " ++ vrepr b ++ " with >")))

/-- `VMArray::push` for `Value` (src/types.rs); the mutated receiver is
returned. -/
def Value.push : Value → Value → Except RunErr Value
  | .Array arr, value => .ok (.Array (arr ++ [value]))
  | _, _ => .error (.vm .NotAnArray)

/-- `VMArray::pop` for `Value` (src/types.rs): removes and returns the
last element; on an empty array the error carries `index = len = 0`
(both read from the already-empty vector).  Returns the mutated receiver
paired with the removed element. -/
def Value.pop : Value → Except RunErr (Value × Value)
  | .Array arr =>
      match arr.getLast? with
      | some v => .ok (.Array arr.dropLast, v)
      | none => .error (.vm (.IndexError 0 0))
  | _ => .error (.vm .NotAnArray)

/-- `VMArray::get` for `Value` (src/types.rs); a `None` index is reported
as `IndexError {index: -1, len}`.  After the bounds check the element
fetch is in range, so the `getD` default is never used. -/
def Value.get : Value → Option Int → Except RunErr Value
  | .Array arr, index =>
      match index with
      | none => .error (.vm (.IndexError (-1) arr.length))
      | some idx =>
          if idx < 0 ∨ (arr.length : Int) ≤ idx then
            .error (.vm (.IndexError idx arr.length))
          else .ok (arr.getD idx.toNat .Null)
  | _, _ => .error (.vm .NotAnArray)

/-- `VMArray::set` for `Value` (src/types.rs); returns the mutated
receiver. -/
def Value.set : Value → Option Int → Value → Except RunErr Value
  | .Array arr, index, value =>
      match index with
      | none => .error (.vm (.IndexError (-1) arr.length))
      | some idx =>
          if idx < 0 ∨ (arr.length : Int) ≤ idx then
            .error (.vm (.IndexError idx arr.length))
          else .ok (.Array (arr.set idx.toNat value))
  | _, _, _ => .error (.vm .NotAnArray)


/-- `enum ArrayOperation` of src/vm.rs. -/
inductive ArrayOperation where
  | Push
  | Pop
  | Get (n : Nat)
  | Set (n : Nat)

/-- `enum Instruction` of src/vm.rs. -/
inductive Instruction where
  | Push (value : Value)
  | Pop
  | Add
  | Sub
  | Mul
  | Div
  | Greater
  | Less
  | Equal
  | NotEqual
  | Jmp (target : Nat)
  | Jz (target : Nat)
  | Label (name : String)
  | Store (name : String)
  | Load (name : String)
  | BeginScope
  | EndScope
  | CreateArray
  | ArrayOp (op : ArrayOperation)

/-- The operator tokens of src/tokenizer.rs (`enum Token`) that reach the
compiler; the remaining constructors are kept so the compiler's catch-all
`panic!` arm is representable. -/
inductive Token where
  | Number (n : Int)
  | Plus
  | Minus
  | Star
  | Slash
  | LParen
  | RParen
  | LBrace
  | RBrace
  | LBracket
  | RBracket
  | Comma
  | If
  | Else
  | While
  | EOF
  | Greater
  | Less
  | Equal
  | NotEqual
  | Ident (name : String)
  | Str (s : String)
  | Assignment

/-- `enum ASTNode` of src/ast.rs.  The `String(String)` constructor is
omitted: src/vm.rs compiles it to `Push(Value::String(_))`, a constructor
that does not exist in the `Value` enum of src/types.rs (the crate does
not type-check with it), and no claim concerns string literals. -/
inductive ASTNode where
  | Number (n : Int)
  | BinOp (left : ASTNode) (op : Token) (right : ASTNode)
  | If (condition : ASTNode) (if_block else_block : List ASTNode)
  | While (condition : ASTNode) (body : List ASTNode)
  | VarDecl (name : String) (value : ASTNode)
  | VarAssign (name : String) (value : ASTNode)
  | VarRef (name : String)
  | Block (nodes : List ASTNode)
  | Array (elements : List ASTNode)
  | ArrayIndex (array index : ASTNode)
  | ArrayAssign (array index value : ASTNode)

/-- A scope frame: `HashMap<String, Value>` as an association list. -/
def Frame := List (String × Value)

/-- `HashMap::insert`: replace the first binding of the key, or add one. -/
def insertVar : List (String × Value) → String → Value → List (String × Value)
  | [], k, v => [(k, v)]
  | (k0, v0) :: rest, k, v =>
      if k0 = k then (k, v) :: rest else (k0, v0) :: insertVar rest k v

/-- `HashMap::get` on one frame. -/
def lookupVar : List (String × Value) → String → Option Value
  | [], _ => none
  | (k0, v0) :: rest, k => if k0 = k then some v0 else lookupVar rest k

/-- Value-kind test used to state claims about non-`Array` receivers. -/
def isArrayVal : Value → Bool
  | .Array _ => true
  | _ => false

/-- Value-kind test used to state claims about non-`Number` operands. -/
def isNumberVal : Value → Bool
  | .Number _ => true
  | _ => false

/-- The `find_map` scan of `ArrayOp(Set)` in src/vm.rs: the key of the
first binding in the current frame whose value is an `Array` (a Rust
`HashMap` iterates in unspecified order; the list order stands in for
one admissible order). -/
def findArrayKey : List (String × Value) → Option String
  | [] => none
  | (k, v) :: rest => if isArrayVal v then some k else findArrayKey rest

/-- `struct VM` of src/vm.rs.  The head of `stack` and of `env_stack` is
the Rust vector's last element (the top). -/
structure VM where
  stack : List Value
  ip : Nat
  env_stack : List (List (String × Value))
  max_stack_size : Nat

/-- `VM::new`: empty stack, `ip = 0`, one empty global frame,
`max_stack_size = 4000`. -/
def VM.new : VM :=
  { stack := [], ip := 0, env_stack := [[]], max_stack_size := 4000 }

/-- `VM::get_var`: scan frames innermost (head) to outermost. -/
def get_var : List (List (String × Value)) → String → Option Value
  | [], _ => none
  | f :: fs, k =>
      match lookupVar f k with
      | some v => some v
      | none => get_var fs k

/-- `VM::push` of src/vm.rs: the *checked* push used only by the `Push`
instruction. -/
def VM.push (st : VM) (value : Value) : Except RunErr VM :=
  if st.max_stack_size ≤ st.stack.length then .error (.vm .StackOverflow)
  else .ok { st with stack := value :: st.stack }

/-- `VM::check_array_bounds` of src/vm.rs. -/
def check_array_bounds (idx : Int) (len : Nat) : Except RunErr Nat :=
  if idx < 0 ∨ (len : Int) ≤ idx then .error (.vm (.IndexError idx len))
  else .ok idx.toNat

/-- One iteration of the `while` loop in `VM::execute` (src/vm.rs),
assuming `ins` is the instruction at `st.ip`.  Returns the successor
state and the updated `scope_depth`; `Jmp` and taken `Jz` set `ip`
directly (the Rust `continue`), every other instruction advances it. -/
def step (insns : List Instruction) (ins : Instruction) (st : VM) (depth : Int) :
    Except RunErr (VM × Int) :=
  match ins with
  | .Push value => do
      let st2 ← st.push value
      .ok ({ st2 with ip := st.ip + 1 }, depth)
  | .Pop =>
      match st.stack with
      | [] => .error (.vm .StackUnderflow)
      | _ :: rest => .ok ({ st with stack := rest, ip := st.ip + 1 }, depth)
  | .Add =>
      match st.stack with
      | b :: a :: rest => do
          let result ← a.add b
          .ok ({ st with stack := result :: rest, ip := st.ip + 1 }, depth)
      | _ => .error (.vm .StackUnderflow)
  | .Sub =>
      match st.stack with
      | b :: a :: rest => do
          let result ← a.sub b
          .ok ({ st with stack := result :: rest, ip := st.ip + 1 }, depth)
      | _ => .error (.vm .StackUnderflow)
  | .Mul =>
      match st.stack with
      | b :: a :: rest => do
          let result ← a.mul b
          .ok ({ st with stack := result :: rest, ip := st.ip + 1 }, depth)
      | _ => .error (.vm .StackUnderflow)
  | .Div =>
      match st.stack with
      | b :: a :: rest => do
          let result ← a.div b
          .ok ({ st with stack := result :: rest, ip := st.ip + 1 }, depth)
      | _ => .error (.vm .StackUnderflow)
  | .Greater =>
      match st.stack with
      | b :: a :: rest => do
          let result ← a.gt b
          .ok ({ st with stack := .Boolean result :: rest, ip := st.ip + 1 }, depth)
      | _ => .error (.vm .StackUnderflow)
  | .Less =>
      match st.stack with
      | b :: a :: rest => do
          let result ← a.lt b
          .ok ({ st with stack := .Boolean result :: rest, ip := st.ip + 1 }, depth)
      | _ => .error (.vm .StackUnderflow)
  | .Equal =>
      match st.stack with
      | b :: a :: rest =>
          .ok ({ st with stack := .Boolean (a.eq b) :: rest, ip := st.ip + 1 }, depth)
      | _ => .error (.vm .StackUnderflow)
  | .NotEqual =>
      match st.stack with
      | b :: a :: rest =>
          .ok ({ st with stack := .Boolean (!a.eq b) :: rest, ip := st.ip + 1 }, depth)
      | _ => .error (.vm .StackUnderflow)
  | .Jmp target =>
      if insns.length ≤ target then
        .error (.vm (.ExecutionError
          ("Jump target " ++ toString target ++ " out of bounds") 0 0))
      else .ok ({ st with ip := target }, depth)
  | .Jz target =>
      if insns.length ≤ target then
        .error (.vm (.InvalidJump target insns.length))
      else
        match st.stack with
        | [] => .error (.vm .StackUnderflow)
        | condition :: rest =>
            if !condition.is_truthy then
              .ok ({ st with stack := rest, ip := target }, depth)
            else .ok ({ st with stack := rest, ip := st.ip + 1 }, depth)
  | .Label _ => .ok ({ st with ip := st.ip + 1 }, depth)
  | .Store name =>
      match st.stack with
      | [] => .error (.vm .StackUnderflow)
      | value :: rest =>
          match st.env_stack with
          | [] => .error (.panicked "No environment on stack")
          | f :: fs =>
              .ok ({ st with stack := rest,
                             env_stack := insertVar f name value :: fs,
                             ip := st.ip + 1 }, depth)
  | .Load name =>
      match get_var st.env_stack name with
      | some value =>
          .ok ({ st with stack := value :: st.stack, ip := st.ip + 1 }, depth)
      | none => .error (.vm (.UndefinedVariable name))
  | .BeginScope =>
      .ok ({ st with env_stack := [] :: st.env_stack, ip := st.ip + 1 }, depth + 1)
  | .EndScope =>
      match st.env_stack with
      | [] => .error (.vm .NoScopeToEnd)
      | _ :: fs => .ok ({ st with env_stack := fs, ip := st.ip + 1 }, depth - 1)
  | .CreateArray =>
      .ok ({ st with stack := .Array [] :: st.stack, ip := st.ip + 1 }, depth)
  | .ArrayOp .Push =>
      match st.stack with
      | value :: array :: rest => do
          let array2 ← array.push value
          .ok ({ st with stack := array2 :: rest, ip := st.ip + 1 }, depth)
      | _ => .error (.vm .StackUnderflow)
  | .ArrayOp .Pop =>
      match st.stack with
      | array :: rest => do
          let r ← array.pop
          .ok ({ st with stack := r.2 :: r.1 :: rest, ip := st.ip + 1 }, depth)
      | _ => .error (.vm .StackUnderflow)
  | .ArrayOp (.Get _) =>
      match st.stack with
      | index :: array :: rest =>
          match index, array with
          | .Number idx, .Array arr => do
              let bound ← check_array_bounds idx arr.length
              .ok ({ st with stack := arr.getD bound .Null :: rest,
                             ip := st.ip + 1 }, depth)
          | _, _ => .error (.vm (.TypeError "Invalid array access"))
      | _ => .error (.vm .StackUnderflow)
  | .ArrayOp (.Set _) =>
      match st.stack with
      | value :: index :: array :: rest =>
          match index, array with
          | .Number idx, .Array arr => do
              let bound ← check_array_bounds idx arr.length
              let array_value := Value.Array (arr.set bound value)
              match st.env_stack with
              | [] => .error (.panicked "No environment on stack")
              | f :: fs =>
                  match findArrayKey f with
                  | some name =>
                      .ok ({ st with stack := rest,
                                     env_stack := insertVar f name array_value :: fs,
                                     ip := st.ip + 1 }, depth)
                  | none => .ok ({ st with stack := rest, ip := st.ip + 1 }, depth)
          | _, _ => .error (.vm (.TypeError "Invalid array assignment"))
      | _ => .error (.vm .StackUnderflow)

/-- Result of running `VM::execute` with explicit fuel. -/
inductive RunResult where
  | done (st : VM)
  | fail (e : RunErr)
  | fuelOut (st : VM) (depth : Int)

/-- `VM::execute` (src/vm.rs): the fetch-dispatch loop with explicit
fuel, plus the post-loop unbalanced-scope check. -/
def run (insns : List Instruction) : Nat → VM → Int → RunResult
  | 0, st, depth => .fuelOut st depth
  | fuel + 1, st, depth =>
      match insns[st.ip]? with
      | none =>
          if depth = 0 then .done st
          else .fail (.vm (.ExecutionError
            ("Unclosed scopes at end of execution: " ++ toString depth) 0 0))
      | some ins =>
          match step insns ins st depth with
          | .error e => .fail e
          | .ok (st2, depth2) => run insns fuel st2 depth2

/-- `VM::execute` started on a fresh VM (`VM::new`, `scope_depth = 0`). -/
def execute (insns : List Instruction) (fuel : Nat) : RunResult :=
  run insns fuel VM.new 0

mutual

/-- `compile` of src/vm.rs: one AST node to a flat instruction list.
Jump targets are absolute indices into this node's own sequence (the
caller rewrites them by its offset).  The Rust `panic!("Unsupported
operation")` on a non-operator token is the `panicked` outcome. -/
def compile : ASTNode → Except RunErr (List Instruction)
  | .Number n => .ok [.Push (.Number n)]
  | .BinOp left op right => do
      let instructions ← compile left
      let rightIns ← compile right
      let opIns ←
        match op with
        | Token.Plus => Except.ok Instruction.Add
        | Token.Minus => Except.ok Instruction.Sub
        | Token.Star => Except.ok Instruction.Mul
        | Token.Slash => Except.ok Instruction.Div
        | Token.Greater => Except.ok Instruction.Greater
        | Token.Less => Except.ok Instruction.Less
        | Token.Equal => Except.ok Instruction.Equal
        | Token.NotEqual => Except.ok Instruction.NotEqual
        | _ => Except.error (RunErr.panicked "Unsupported operation")
      .ok (instructions ++ rightIns ++ [opIns])
  | .If condition if_block else_block => do
      let instructions ← compile condition
      let if_instructions ← compileSeq if_block
      let else_instructions ← compileSeq else_block
      let else_start := instructions.length + if_instructions.length + 2
      let after_else := else_start + else_instructions.length
      .ok (instructions ++ [.Jz else_start] ++ if_instructions
            ++ [.Jmp after_else] ++ else_instructions)
  | .While condition body => do
      let condIns ← compile condition
      let body_instructions ← compileSeq body
      let jz_placeholder_index := condIns.length
      let after_loop := jz_placeholder_index + 1 + body_instructions.length + 1
      .ok (condIns ++ [.Jz after_loop] ++ body_instructions ++ [.Jmp 0])
  | .VarDecl name value => do
      let instructions ← compile value
      .ok (instructions ++ [.Store name])
  | .VarAssign name value => do
      let instructions ← compile value
      .ok (instructions ++ [.Store name])
  | .VarRef name => .ok [.Load name]
  | .Block nodes => do
      let inner ← compileSeq nodes
      .ok ([.BeginScope] ++ inner ++ [.EndScope])
  | .Array elements => do
      let elems ← compileArrayElems elements
      .ok ([.CreateArray] ++ elems)
  | .ArrayIndex array index => do
      let arrIns ← compile array
      let idxIns ← compile index
      .ok (arrIns ++ idxIns ++ [.ArrayOp (.Get 0)])
  | .ArrayAssign array index value => do
      let arrIns ← compile array
      let idxIns ← compile index
      let valIns ← compile value
      .ok (arrIns ++ idxIns ++ valIns ++ [.ArrayOp (.Set 0)])

/-- `flat_map(compile)` over a node list (if/while/block bodies). -/
def compileSeq : List ASTNode → Except RunErr (List Instruction)
  | [] => .ok []
  | node :: rest => do
      let i ← compile node
      let tail ← compileSeq rest
      .ok (i ++ tail)

/-- The element loop of the `Array` arm: each element's code followed by
`ArrayOp(Push)`. -/
def compileArrayElems : List ASTNode → Except RunErr (List Instruction)
  | [] => .ok []
  | element :: rest => do
      let i ← compile element
      let tail ← compileArrayElems rest
      .ok (i ++ [.ArrayOp .Push] ++ tail)

end

/-- The per-instruction target rewrite of `run_instructions`
(src/vm.rs): add the cumulative offset to `Jmp`/`Jz` targets. -/
def addOffset (offset : Nat) : Instruction → Instruction
  | .Jmp target => .Jmp (target + offset)
  | .Jz target => .Jz (target + offset)
  | i => i

/-- The offset-accumulating loop of `run_instructions` (src/vm.rs). -/
def run_instructions_from : Nat → List ASTNode → Except RunErr (List Instruction)
  | _, [] => .ok []
  | offset, node :: rest => do
      let node_instructions ← compile node
      let rewritten := node_instructions.map (addOffset offset)
      let tail ← run_instructions_from (offset + node_instructions.length) rest
      .ok (rewritten ++ tail)

/-- `run_instructions` of src/vm.rs: compile a top-level statement list,
rewriting every `Jmp`/`Jz` target by the cumulative offset of the
preceding statements' instruction counts. -/
def run_instructions (nodes : List ASTNode) : Except RunErr (List Instruction) :=
  run_instructions_from 0 nodes

/-- C9: `is_truthy(v)` holds exactly when `v` is a strictly positive
`Number`, is `Boolean(true)`, or is a non-empty `Array`; `Null` and
every nonpositive `Number` are falsy. -/
theorem is_truthy_spec (v : Value) :
    v.is_truthy = true ↔
      ((∃ n : Int, v = .Number n ∧ 0 < n) ∨ v = .Boolean true ∨
        ∃ xs : List Value, v = .Array xs ∧ xs ≠ []) := by
  cases v <;> simp [Value.is_truthy]

/-- C1 (divergence witness): the `eq` of src/types.rs compares only
truthiness, so the distinct numbers `1` and `2` compare equal, and the
cross-type pair `Number(5)` / `Boolean(true)` compares equal, contrary
to the structural equality the specification mandates. -/
theorem eq_is_truthiness_based :
    Value.eq (.Number 1) (.Number 2) = true ∧
    Value.Number 1 ≠ Value.Number 2 ∧
    Value.eq (.Number 5) (.Boolean true) = true := by
  refine ⟨rfl, ?_, rfl⟩
  intro h
  simp at h

/-- C6: every `VMArray` operation of src/types.rs applied to a
non-`Array` receiver fails with `NotAnArray`; `get`/`set` fail with
`IndexError {index, len}` whenever the index is negative or at least the
length; popping an empty array fails with `IndexError {0, 0}`. -/
theorem array_ops_error_spec (v w : Value) (idx : Int) (xs : List Value)
    (hv : isArrayVal v = false)
    (hidx : idx < 0 ∨ (xs.length : Int) ≤ idx) :
    v.push w = .error (.vm .NotAnArray) ∧
    v.pop = .error (.vm .NotAnArray) ∧
    v.get (some idx) = .error (.vm .NotAnArray) ∧
    v.set (some idx) w = .error (.vm .NotAnArray) ∧
    (Value.Array xs).get (some idx) = .error (.vm (.IndexError idx xs.length)) ∧
    (Value.Array xs).set (some idx) w = .error (.vm (.IndexError idx xs.length)) ∧
    (Value.Array []).pop = .error (.vm (.IndexError 0 0)) := by
  refine ⟨?_, ?_, ?_, ?_, ?_, ?_, rfl⟩
  · cases v <;> simp_all [Value.push, isArrayVal]
  · cases v <;> simp_all [Value.pop, isArrayVal]
  · cases v <;> simp_all [Value.get, isArrayVal]
  · cases v <;> simp_all [Value.set, isArrayVal]
  · simp [Value.get, hidx]
  · simp [Value.set, hidx]

/-- Witness for `array_ops_error_spec` at `v = Null`, `idx = 3`,
`xs = [1, 2, 3]` — the spec's own example `IndexError {index: 3, len: 3}`. -/
theorem array_ops_error_spec_witness :
    Value.Null.push Value.Null = .error (.vm .NotAnArray) ∧
    (Value.Array [Value.Number 1, Value.Number 2, Value.Number 3]).get (some 3) =
      .error (.vm (.IndexError 3 3)) := by
  have h := array_ops_error_spec Value.Null Value.Null 3
    [Value.Number 1, Value.Number 2, Value.Number 3] rfl (by right; norm_num)
  exact ⟨h.1, h.2.2.2.2.1⟩

/-- C8 (counterexample): `div(Number(i32::MIN), Number(-1))` has a
nonzero divisor yet does not return the truncated quotient — Rust `i32`
division panics on this one overflowing pair. -/
theorem div_min_by_neg_one :
    Value.div (.Number (-2147483648)) (.Number (-1)) =
      .error (.panicked "attempt to divide with overflow") ∧
    (-1 : Int) ≠ 0 := by
  refine ⟨rfl, by norm_num⟩

/-- C8 (amended): for `b ≠ 0` and `(a, b) ≠ (i32::MIN, -1)`,
`div(Number(a), Number(b))` returns the quotient truncated toward zero
(`Int.tdiv`); a zero divisor fails with `DivisionByZero` (checked before
any division); any operand pair that is not `Number × Number` fails with
`TypeError`. -/
theorem div_spec (a b : Int) (x y : Value) (hb : b ≠ 0)
    (hov : ¬(a = -2147483648 ∧ b = -1))
    (hxy : isNumberVal x = false ∨ isNumberVal y = false) :
    Value.div (.Number a) (.Number b) = .ok (.Number (a.tdiv b)) ∧
    Value.div (.Number a) (.Number 0) = .error (.vm .DivisionByZero) ∧
    (∃ msg, Value.div x y = .error (.vm (.TypeError msg))) := by
  refine ⟨by simp [Value.div, hb, hov], by simp [Value.div], ?_⟩
  cases x <;> cases y <;>
    first
      | exact ⟨_, rfl⟩
      | simp [isNumberVal] at hxy

/-- Witness for `div_spec` at `a = -7`, `b = 2`, `x = Null`,
`y = Boolean(true)`: `-7 / 2` truncates toward zero to `-3`. -/
theorem div_spec_witness :
    Value.div (.Number (-7)) (.Number 2) = .ok (.Number (-3)) ∧
    Value.div (.Number (-7)) (.Number 0) = .error (.vm .DivisionByZero) := by
  have h := div_spec (-7) 2 Value.Null (Value.Boolean true)
    (by norm_num) (by norm_num) (Or.inl rfl)
  refine ⟨?_, h.2.1⟩
  rw [h.1]
  rfl

/-- C10: `add`/`sub`/`mul` on `Number × Number` always succeed with the
two\'s-complement (mod `2^32`) result for *every* pair of operands —
overflow is never an error — and an error of `div` on `Number × Number`
is either `DivisionByZero` or the `i32::MIN / -1` overflow panic. -/
theorem number_arith_unchecked (a b : Int) :
    Value.add (.Number a) (.Number b) = .ok (.Number (wrap32 (a + b))) ∧
    Value.sub (.Number a) (.Number b) = .ok (.Number (wrap32 (a - b))) ∧
    Value.mul (.Number a) (.Number b) = .ok (.Number (wrap32 (a * b))) ∧
    (∀ x : Int, wrap32 x % 4294967296 = x % 4294967296) ∧
    (∀ e : RunErr, Value.div (.Number a) (.Number b) = .error e →
      e = .vm .DivisionByZero ∨ e = .panicked "attempt to divide with overflow") := by
  refine ⟨rfl, rfl, rfl, fun x => by unfold wrap32; omega, ?_⟩
  intro e hdiv
  simp only [Value.div] at hdiv
  split_ifs at hdiv
  · exact Or.inl (by injection hdiv with h; exact h.symm)
  · exact Or.inr (by injection hdiv with h; exact h.symm)

/-- Witness for `number_arith_unchecked`: at `(i32::MAX, 1)` the sum
wraps to `i32::MIN` with no error, and at `(1, 0)` the inner
div-error hypothesis is discharged with `DivisionByZero`. -/
theorem number_arith_unchecked_witness :
    Value.add (.Number 2147483647) (.Number 1) = .ok (.Number (-2147483648)) ∧
    (RunErr.vm .DivisionByZero = .vm VMError.DivisionByZero ∨
      RunErr.vm .DivisionByZero = .panicked "attempt to divide with overflow") := by
  have h1 := number_arith_unchecked 2147483647 1
  have h2 := number_arith_unchecked 1 0
  refine ⟨?_, h2.2.2.2.2 (.vm .DivisionByZero) rfl⟩
  rw [h1.1]
  norm_num [wrap32]

/-- C7: every binary arithmetic/comparison instruction pops the right
operand `b` first (stack top) and the left operand `a` second, and
pushes `a OP b`; in particular `Greater` pushes `Boolean(b < a)`, i.e.
`a > b`, and `Sub` pushes `Number(a - b)`. -/
theorem binop_operand_order (insns : List Instruction) (st : VM) (depth : Int)
    (a b : Int) (rest : List Value)
    (hstack : st.stack = .Number b :: .Number a :: rest)
    (hb : b ≠ 0) (hov : ¬(a = -2147483648 ∧ b = -1)) :
    step insns .Add st depth =
      .ok ({ st with stack := .Number (wrap32 (a + b)) :: rest, ip := st.ip + 1 }, depth) ∧
    step insns .Sub st depth =
      .ok ({ st with stack := .Number (wrap32 (a - b)) :: rest, ip := st.ip + 1 }, depth) ∧
    step insns .Mul st depth =
      .ok ({ st with stack := .Number (wrap32 (a * b)) :: rest, ip := st.ip + 1 }, depth) ∧
    step insns .Div st depth =
      .ok ({ st with stack := .Number (a.tdiv b) :: rest, ip := st.ip + 1 }, depth) ∧
    step insns .Greater st depth =
      .ok ({ st with stack := .Boolean (decide (b < a)) :: rest, ip := st.ip + 1 }, depth) ∧
    step insns .Less st depth =
      .ok ({ st with stack := .Boolean (decide (a < b)) :: rest, ip := st.ip + 1 }, depth) ∧
    step insns .Equal st depth =
      .ok ({ st with stack := .Boolean (Value.eq (.Number a) (.Number b)) :: rest,
                     ip := st.ip + 1 }, depth) ∧
    step insns .NotEqual st depth =
      .ok ({ st with stack := .Boolean (!Value.eq (.Number a) (.Number b)) :: rest,
                     ip := st.ip + 1 }, depth) := by
  obtain ⟨stack, ip, env, msz⟩ := st
  simp only at hstack
  subst hstack
  refine ⟨rfl, rfl, rfl, ?_, rfl, rfl, rfl, rfl⟩
  simp only [step, Value.div, if_neg hb, if_neg hov]
  rfl

/-- Witness for `binop_operand_order` with `3` pushed before `2`
(stack top is `2`): `Greater` yields `Boolean(true)` — `3 > 2` — and
`Sub` yields `Number(1)` — `3 - 2`. -/
theorem binop_operand_order_witness :
    step [] .Greater { stack := [.Number 2, .Number 3], ip := 0,
                       env_stack := [[]], max_stack_size := 4000 } 0 =
      .ok ({ stack := [.Boolean true], ip := 1,
             env_stack := [[]], max_stack_size := 4000 }, 0) ∧
    step [] .Sub { stack := [.Number 2, .Number 3], ip := 0,
                   env_stack := [[]], max_stack_size := 4000 } 0 =
      .ok ({ stack := [.Number 1], ip := 1,
             env_stack := [[]], max_stack_size := 4000 }, 0) := by
  have h := binop_operand_order []
    { stack := [.Number 2, .Number 3], ip := 0, env_stack := [[]], max_stack_size := 4000 }
    0 3 2 [] rfl (by norm_num) (by norm_num)
  refine ⟨?_, ?_⟩
  · rw [h.2.2.2.2.1]
    rfl
  · rw [h.2.1]
    rfl

/-- C2 (divergence witness): executing `ArrayOp(Set)` pops value `5`,
index `0` and array `[7]` and terminates with an *empty* operand stack —
the mutated array is never pushed back — and, when the current frame
holds an array-valued binding, that binding is overwritten by the
environment scan.  The claim requires the mutated array on the stack and
the environment untouched. -/
theorem array_set_discards_result :
    run [.ArrayOp (.Set 0)] 2
        { stack := [Value.Number 5, Value.Number 0, Value.Array [Value.Number 7]],
          ip := 0, env_stack := [[]], max_stack_size := 4000 } 0 =
      .done { stack := [], ip := 1, env_stack := [[]], max_stack_size := 4000 } ∧
    run [.ArrayOp (.Set 0)] 2
        { stack := [Value.Number 5, Value.Number 0, Value.Array [Value.Number 7]],
          ip := 0, env_stack := [[("y", Value.Array [Value.Null])]],
          max_stack_size := 4000 } 0 =
      .done { stack := [], ip := 1,
              env_stack := [[("y", Value.Array [Value.Number 5])]],
              max_stack_size := 4000 } := by
  exact ⟨rfl, rfl⟩

/-- C3 (divergence witness): the compiler output for the single
top-level statement `while (0) {}` is `[Push 0, Jz 3, Jmp 0]`, whose
`Jz` target `3` equals the instruction count (it is not `< 3`), and
executing that compiler output fails with `InvalidJump {target: 3,
max: 3}`. -/
theorem trailing_while_invalid_jump :
    run_instructions [ASTNode.While (.Number 0) []] =
      .ok [.Push (.Number 0), .Jz 3, .Jmp 0] ∧
    List.length [Instruction.Push (.Number 0), .Jz 3, .Jmp 0] = 3 ∧
    execute [.Push (.Number 0), .Jz 3, .Jmp 0] 5 =
      .fail (.vm (.InvalidJump 3 3)) := by
  exact ⟨rfl, rfl, rfl⟩

/-- C4 (divergence witness): `EndScope` on a fresh VM pops the global
frame (leaving the environment stack empty) without raising
`NoScopeToEnd`; the run then fails only via the post-loop unbalanced-
scope check, and `EndScope` followed by `BeginScope` even *succeeds*
with the global frame replaced. -/
theorem endscope_pops_global_frame :
    step [.EndScope] .EndScope VM.new 0 =
      .ok ({ stack := [], ip := 1, env_stack := [], max_stack_size := 4000 }, -1) ∧
    run [.EndScope] 2 VM.new 0 =
      .fail (.vm (.ExecutionError "Unclosed scopes at end of execution: -1" 0 0)) ∧
    run [.EndScope, .BeginScope] 3 VM.new 0 =
      .done { stack := [], ip := 2, env_stack := [[]], max_stack_size := 4000 } := by
  exact ⟨rfl, rfl, rfl⟩

/-- Fuel composition: a block of `n` consecutive `Push v` instructions
starting at `st.ip` executes to `n` copies of `v` on the stack when the
stack has room for all of them. -/
theorem run_push_block (insns : List Instruction) (v : Value) :
    ∀ (n fuel : Nat) (st : VM) (depth : Int),
      (∀ k, k < n → insns[st.ip + k]? = some (Instruction.Push v)) →
      st.stack.length + n ≤ st.max_stack_size →
      run insns (n + fuel) st depth =
        run insns fuel
          { st with stack := List.replicate n v ++ st.stack, ip := st.ip + n } depth := by
  intro n
  induction n with
  | zero =>
      intro fuel st depth _ _
      simp
  | succ n ih =>
      intro fuel st depth hins hroom
      have h0 : insns[st.ip]? = some (Instruction.Push v) := by
        simpa using hins 0 (Nat.succ_pos n)
      have hlt : ¬ st.max_stack_size ≤ st.stack.length := by omega
      have hfuel : n + 1 + fuel = (n + fuel) + 1 := by omega
      rw [hfuel]
      simp only [run, h0, step, VM.push]
      rw [if_neg hlt]
      have hstep := ih fuel { st with stack := v :: st.stack, ip := st.ip + 1 } depth
        (by
          intro k hk
          have harith : st.ip + 1 + k = st.ip + (k + 1) := by omega
          simp only [harith]
          exact hins (k + 1) (by omega))
        (by simp; omega)
      refine Eq.trans hstep ?_
      have hip : st.ip + 1 + n = st.ip + (n + 1) := by omega
      have hstk : List.replicate n v ++ v :: st.stack =
          List.replicate (n + 1) v ++ st.stack := by
        rw [List.replicate_succ', List.append_assoc]
        rfl
      simp only [hstk, hip]

/-- One successful iteration of the VM loop, as a rewriting rule. -/
theorem run_step_ok (insns : List Instruction) (fuel : Nat) (st st2 : VM)
    (depth depth2 : Int) (ins : Instruction)
    (hfetch : insns[st.ip]? = some ins)
    (hstep : step insns ins st depth = .ok (st2, depth2)) :
    run insns (fuel + 1) st depth = run insns fuel st2 depth2 := by
  simp only [run, hfetch, hstep]

/-- Loop exit with balanced scopes, as a rewriting rule. -/
theorem run_halt (insns : List Instruction) (fuel : Nat) (st : VM)
    (hfetch : insns[st.ip]? = none) :
    run insns (fuel + 1) st 0 = .done st := by
  simp only [run, hfetch]
  rfl

/-- C5 (counterexample): from a fresh VM (`max_stack_size = 4000`), the
program of 4000 `Push(Null)` instructions followed by one `CreateArray`
runs to successful completion with 4001 values on the operand stack:
`CreateArray` grows the stack beyond the configured maximum without
`StackOverflow`. -/
theorem stack_limit_unchecked_growth :
    ∃ st : VM,
      execute (List.replicate 4000 (Instruction.Push Value.Null)
                ++ [Instruction.CreateArray]) 4002 = RunResult.done st ∧
      st.max_stack_size < st.stack.length := by
  have hlen : (List.replicate 4000 (Instruction.Push Value.Null)).length = 4000 :=
    List.length_replicate _ _
  have hins : ∀ k, k < 4000 →
      (List.replicate 4000 (Instruction.Push Value.Null)
        ++ [Instruction.CreateArray])[VM.new.ip + k]? =
        some (Instruction.Push Value.Null) := by
    intro k hk
    have hip : VM.new.ip + k = k := Nat.zero_add k
    rw [hip, List.getElem?_append, hlen, if_pos hk, List.getElem?_replicate, if_pos hk]
  have hroom : VM.new.stack.length + 4000 ≤ VM.new.max_stack_size := Nat.le_refl _
  have h := run_push_block _ Value.Null 4000 2 VM.new 0 hins hroom
  have hstate : ({ VM.new with
        stack := List.replicate 4000 Value.Null ++ VM.new.stack,
        ip := VM.new.ip + 4000 } : VM) =
      { stack := List.replicate 4000 Value.Null, ip := 4000,
        env_stack := [[]], max_stack_size := 4000 } := by
    simp only [VM.new, List.append_nil, Nat.zero_add]
  have e1 : (List.replicate 4000 (Instruction.Push Value.Null)
      ++ [Instruction.CreateArray])[(4000 : Nat)]? = some Instruction.CreateArray := by
    rw [List.getElem?_append_right (by rw [hlen]), hlen]
    rfl
  have e2 : (List.replicate 4000 (Instruction.Push Value.Null)
      ++ [Instruction.CreateArray])[(4001 : Nat)]? = none := by
    rw [List.getElem?_append_right (by rw [hlen]; norm_num), hlen]
    rfl
  refine ⟨{ stack := Value.Array [] :: List.replicate 4000 Value.Null, ip := 4001,
            env_stack := [[]], max_stack_size := 4000 }, ?_, ?_⟩
  · show run _ 4002 VM.new 0 = _
    have hstep1 : step
        (List.replicate 4000 (Instruction.Push Value.Null) ++ [Instruction.CreateArray])
        Instruction.CreateArray
        { stack := List.replicate 4000 Value.Null, ip := 4000,
          env_stack := [[]], max_stack_size := 4000 } 0 =
        .ok ({ stack := Value.Array [] :: List.replicate 4000 Value.Null, ip := 4001,
               env_stack := [[]], max_stack_size := 4000 }, 0) := rfl
    rw [show (4002 : Nat) = 4000 + 2 from by norm_num, h, hstate,
      show (2 : Nat) = 1 + 1 from rfl,
      run_step_ok _ 1
        { stack := List.replicate 4000 Value.Null, ip := 4000,
          env_stack := [[]], max_stack_size := 4000 }
        { stack := Value.Array [] :: List.replicate 4000 Value.Null, ip := 4001,
          env_stack := [[]], max_stack_size := 4000 }
        0 0 Instruction.CreateArray e1 hstep1,
      show (1 : Nat) = 0 + 1 from rfl,
      run_halt _ 0
        { stack := Value.Array [] :: List.replicate 4000 Value.Null, ip := 4001,
          env_stack := [[]], max_stack_size := 4000 } e2]
  · rw [List.length_cons, List.length_replicate]
    norm_num

/-- C5 (amended): only the `Push` instruction enforces the configured
maximum stack depth.  On a full stack (`max_stack_size ≤ stack length`)
`Push` fails with `StackOverflow`, while `CreateArray`, a resolving
`Load`, and `ArrayOp(Pop)` all push onto the operand stack unchecked,
growing it beyond the configured maximum. -/
theorem push_enforces_stack_limit (insns : List Instruction) (v w : Value)
    (name : String) (arr rest : List Value) (st : VM) (depth : Int)
    (h : st.max_stack_size ≤ st.stack.length) :
    step insns (.Push v) st depth = .error (.vm .StackOverflow) ∧
    step insns .CreateArray st depth =
      .ok ({ st with stack := .Array [] :: st.stack, ip := st.ip + 1 }, depth) ∧
    (get_var st.env_stack name = some w →
      step insns (.Load name) st depth =
        .ok ({ st with stack := w :: st.stack, ip := st.ip + 1 }, depth)) ∧
    (st.stack = .Array (arr ++ [w]) :: rest →
      step insns (.ArrayOp .Pop) st depth =
        .ok ({ st with stack := w :: .Array arr :: rest, ip := st.ip + 1 }, depth)) := by
  refine ⟨?_, rfl, ?_, ?_⟩
  · simp only [step, VM.push]
    rw [if_pos h]
    rfl
  · intro hl
    simp [step, hl]
  · intro hs
    simp only [step, hs, Value.pop, List.getLast?_concat, List.dropLast_concat]
    rfl

/-- Witness for `push_enforces_stack_limit` at a full one-slot stack
holding `Array([Null])`, with `x ↦ Null` bound in the global frame:
`Push` overflows while `CreateArray`, `Load x` and `ArrayOp(Pop)` each
grow the stack to two entries. -/
theorem push_enforces_stack_limit_witness :
    step [] (.Push Value.Null)
        { stack := [Value.Array [Value.Null]], ip := 0,
          env_stack := [[("x", Value.Null)]], max_stack_size := 1 } 0 =
      .error (.vm .StackOverflow) ∧
    step [] .CreateArray
        { stack := [Value.Array [Value.Null]], ip := 0,
          env_stack := [[("x", Value.Null)]], max_stack_size := 1 } 0 =
      .ok ({ stack := [Value.Array [], Value.Array [Value.Null]], ip := 1,
             env_stack := [[("x", Value.Null)]], max_stack_size := 1 }, 0) ∧
    step [] (.Load "x")
        { stack := [Value.Array [Value.Null]], ip := 0,
          env_stack := [[("x", Value.Null)]], max_stack_size := 1 } 0 =
      .ok ({ stack := [Value.Null, Value.Array [Value.Null]], ip := 1,
             env_stack := [[("x", Value.Null)]], max_stack_size := 1 }, 0) ∧
    step [] (.ArrayOp .Pop)
        { stack := [Value.Array [Value.Null]], ip := 0,
          env_stack := [[("x", Value.Null)]], max_stack_size := 1 } 0 =
      .ok ({ stack := [Value.Null, Value.Array []], ip := 1,
             env_stack := [[("x", Value.Null)]], max_stack_size := 1 }, 0) := by
  have h := push_enforces_stack_limit [] Value.Null Value.Null "x" [] []
    { stack := [Value.Array [Value.Null]], ip := 0,
      env_stack := [[("x", Value.Null)]], max_stack_size := 1 } 0 (by simp)
  exact ⟨h.1, h.2.1, h.2.2.1 rfl, h.2.2.2 rfl⟩
